import Mathlib

/-!
# Verification of the bronzebeard RISC-V assembler core

A shallow embedding of the assembler in `bronzebeard/asm.py` (register lookup,
instruction encoders, expression evaluation, and the resolver passes), together
with theorems checking the natural-language specification against it.

Conventions of the embedding:
* Python integers are Lean `Int`.  Python `%` and `//`/`>>` with a positive
  divisor agree with Lean's Euclidean `%` and `/` on `Int`, so those operators
  translate directly.
* Python's two's-complement `x & (2^k - 1)` equals `x % 2^k`, and
  `x & 2^(k-1)` equals `2^(k-1) * ((x / 2^(k-1)) % 2)`, for every integer `x`;
  masks are translated accordingly.
* Nonnegative bit-packing (the `code |= field << k` accumulation in the
  encoders) is carried out on `Nat` with `|||` and `<<<`, mirroring the source.
* Fallible code returns `Except String α`; the message is the source's message
  without the interpolated offending value.
-/

deriving instance DecidableEq for Except

namespace Bronzebeard

/-- Source: `ctypes.c_uint32(v).value`: wrap to an unsigned 32-bit value. -/
def c_uint32 (v : Int) : Int := v % 2 ^ 32

/-- Source: `ctypes.c_int32(v).value`: wrap to a signed 32-bit value. -/
def c_int32 (v : Int) : Int :=
  let r := v % 2 ^ 32
  if r ≥ 2 ^ 31 then r - 2 ^ 32 else r

/-- Source: `sign_extend(value, bits)` from asm.py:
`(value & (sign_bit - 1)) - (value & sign_bit)` with `sign_bit = 1 << (bits-1)`.
The two masks are translated to arithmetic on `Int` (see module conventions). -/
def sign_extend (value : Int) (bits : Nat) : Int :=
  let sign_bit : Int := 2 ^ (bits - 1)
  (value % sign_bit) - sign_bit * ((value / sign_bit) % 2)

/-- Source: `relocate_hi(imm)` from asm.py: if bit 11 of `imm` is set (`imm & 0x800`),
add `2^12`, then sign-extend `(imm >> 12) & 0xfffff` as a 20-bit value. -/
def relocate_hi (imm : Int) : Int :=
  let imm := if (imm / 2 ^ 11) % 2 = 1 then imm + 2 ^ 12 else imm
  sign_extend ((imm / 2 ^ 12) % 2 ^ 20) 20

/-- Source: `relocate_lo(imm)` from asm.py: sign-extend `imm & 0xfff` as a 12-bit value. -/
def relocate_lo (imm : Int) : Int :=
  sign_extend (imm % 2 ^ 12) 12

/-! ## Register operands (`REGISTERS`, `lookup_register`) -/

/-- A Python value appearing as a register operand: an `int` or a `str`. -/
inductive PyVal where
  | int (i : Int)
  | str (s : String)
deriving DecidableEq, Repr

/-- Numeric value of an alphanumeric character (`0`-`9`, `a`-`z`, `A`-`Z`). -/
def digitVal? (c : Char) : Option Nat :=
  if '0' ≤ c ∧ c ≤ '9' then some (c.toNat - '0'.toNat)
  else if 'a' ≤ c ∧ c ≤ 'z' then some (c.toNat - 'a'.toNat + 10)
  else if 'A' ≤ c ∧ c ≤ 'Z' then some (c.toNat - 'A'.toNat + 10)
  else none

/-- Is `c` a valid digit in the given base? -/
def isDigitIn (base : Nat) (c : Char) : Bool :=
  match digitVal? c with
  | some v => v < base
  | none => false

/-- Digit-run accumulator: digits in `base`, a single `_` allowed between
digits (Python numeric-literal underscore rule). -/
def parseDigitsGo (base : Nat) (acc : Nat) : List Char → Option Nat
  | [] => some acc
  | '_' :: c :: cs =>
    if isDigitIn base c then
      parseDigitsGo base (acc * base + (digitVal? c).getD 0) cs
    else none
  | ['_'] => none
  | c :: cs =>
    if isDigitIn base c then
      parseDigitsGo base (acc * base + (digitVal? c).getD 0) cs
    else none

/-- A nonempty digit run in `base` (first char must be a digit). -/
def parseDigits (base : Nat) : List Char → Option Nat
  | [] => none
  | c :: cs =>
    if isDigitIn base c then parseDigitsGo base ((digitVal? c).getD 0) cs
    else none

/-- Digit run after a base prefix; Python allows one `_` right after the
prefix (`0x_1f`). -/
def parseAfterBasePrefix (base : Nat) : List Char → Option Nat
  | '_' :: cs => parseDigits base cs
  | cs => parseDigits base cs

/-- Unsigned part of a Python base-0 integer literal: `0x`/`0o`/`0b` prefixes
select the base, otherwise decimal; a nonzero decimal may not start with `0`. -/
def parseUnsignedLiteral (cs : List Char) : Option Nat :=
  let decimal := fun (ds : List Char) =>
    match parseDigits 10 ds with
    | some n => if ds.head? = some '0' ∧ n ≠ 0 then none else some n
    | none => none
  match cs with
  | '0' :: x :: rest =>
    if x = 'x' ∨ x = 'X' then parseAfterBasePrefix 16 rest
    else if x = 'o' ∨ x = 'O' then parseAfterBasePrefix 8 rest
    else if x = 'b' ∨ x = 'B' then parseAfterBasePrefix 2 rest
    else decimal ('0' :: x :: rest)
  | _ => decimal cs

/-- Python `int(s, base=0)`: optional sign, automatic base detection from the
`0x`/`0o`/`0b` prefix, otherwise decimal (leading zeros rejected for nonzero
values).  Surrounding whitespace is not modelled: the assembler's lexer has
already split tokens on whitespace. -/
def pyIntBase0 (s : String) : Option Int :=
  match s.toList with
  | '+' :: cs => (parseUnsignedLiteral cs).map (fun n => (n : Int))
  | '-' :: cs => (parseUnsignedLiteral cs).map (fun n => -(n : Int))
  | cs => (parseUnsignedLiteral cs).map (fun n => (n : Int))

/-- The string keys of the `REGISTERS` dict in asm.py, in source order: the
numeric spelling, the architectural `x`-name, and the ABI alias(es) for each
register (the dict's `int` keys are handled separately in `lookup_register`). -/
def REGISTERS : List (String × Nat) := [
  ("0", 0), ("x0", 0), ("zero", 0),
  ("1", 1), ("x1", 1), ("ra", 1),
  ("2", 2), ("x2", 2), ("sp", 2),
  ("3", 3), ("x3", 3), ("gp", 3),
  ("4", 4), ("x4", 4), ("tp", 4),
  ("5", 5), ("x5", 5), ("t0", 5),
  ("6", 6), ("x6", 6), ("t1", 6),
  ("7", 7), ("x7", 7), ("t2", 7),
  ("8", 8), ("x8", 8), ("s0", 8), ("fp", 8),
  ("9", 9), ("x9", 9), ("s1", 9),
  ("10", 10), ("x10", 10), ("a0", 10),
  ("11", 11), ("x11", 11), ("a1", 11),
  ("12", 12), ("x12", 12), ("a2", 12),
  ("13", 13), ("x13", 13), ("a3", 13),
  ("14", 14), ("x14", 14), ("a4", 14),
  ("15", 15), ("x15", 15), ("a5", 15),
  ("16", 16), ("x16", 16), ("a6", 16),
  ("17", 17), ("x17", 17), ("a7", 17),
  ("18", 18), ("x18", 18), ("s2", 18),
  ("19", 19), ("x19", 19), ("s3", 19),
  ("20", 20), ("x20", 20), ("s4", 20),
  ("21", 21), ("x21", 21), ("s5", 21),
  ("22", 22), ("x22", 22), ("s6", 22),
  ("23", 23), ("x23", 23), ("s7", 23),
  ("24", 24), ("x24", 24), ("s8", 24),
  ("25", 25), ("x25", 25), ("s9", 25),
  ("26", 26), ("x26", 26), ("s10", 26),
  ("27", 27), ("x27", 27), ("s11", 27),
  ("28", 28), ("x28", 28), ("t3", 28),
  ("29", 29), ("x29", 29), ("t4", 29),
  ("30", 30), ("x30", 30), ("t5", 30),
  ("31", 31), ("x31", 31), ("t6", 31)]

/-- Lookup in the string keys of `REGISTERS`. -/
def lookupRegStr (s : String) : Option Nat :=
  (REGISTERS.find? (fun p => p.1 = s)).map (fun p => p.2)

/-- The `try: reg = int(reg, base=0) except: pass` step of `lookup_register`:
a parseable string becomes an `int`, anything else is left unchanged
(`int(i, base=0)` on an `int` raises `TypeError`, which is swallowed). -/
def coerceRegToken (reg : PyVal) : PyVal :=
  match reg with
  | .str s =>
    match pyIntBase0 s with
    | some i => .int i
    | none => .str s
  | .int i => .int i

/-- The `REGISTERS[reg]` dict lookup: an `int` key is present iff it is
0..31 (and maps to itself); a `str` key is looked up in the string table. -/
def regKeyLookup (reg : PyVal) : Option Nat :=
  match reg with
  | .int i => if 0 ≤ i ∧ i ≤ 31 then some i.toNat else none
  | .str s => lookupRegStr s

/-- Source: `lookup_register(reg, compressed=False)` from asm.py: first try
`int(reg, base=0)` (a failure leaves `reg` unchanged, and so does an `int`
input), then look the result up in `REGISTERS` (an `int` key is valid iff it
is 0..31), then apply the compressed-register restriction and rebasing. -/
def lookup_register (reg : PyVal) (compressed : Bool) : Except String Nat :=
  match regKeyLookup (coerceRegToken reg) with
  | none => .error "register must be a valid integer, name, or alias"
  | some r =>
    if compressed then
      if r < 8 ∨ r > 15 then
        .error "compressed register must be between 8 and 15"
      else .ok (r - 8)
    else .ok r

/-! ## Instruction encoders -/

/-- Source: `r_type(rd, rs1, rs2, *, opcode, funct3, funct7)` from asm.py. -/
def r_type (rd rs1 rs2 : PyVal) (opcode funct3 funct7 : Nat) :
    Except String Nat :=
  match lookup_register rd false with
  | .error e => .error e
  | .ok rd =>
  match lookup_register rs1 false with
  | .error e => .error e
  | .ok rs1 =>
  match lookup_register rs2 false with
  | .error e => .error e
  | .ok rs2 =>
  .ok (0 ||| opcode ||| (rd <<< 7) ||| (funct3 <<< 12) ||| (rs1 <<< 15) |||
    (rs2 <<< 20) ||| (funct7 <<< 25))

/-- Source: `i_type(rd, rs1, imm, *, opcode, funct3)` from asm.py; the immediate is
range-checked, then reduced modulo 2^12 via `c_uint32(imm).value & 0xfff`. -/
def i_type (rd rs1 : PyVal) (imm : Int) (opcode funct3 : Nat) :
    Except String Nat :=
  match lookup_register rd false with
  | .error e => .error e
  | .ok rd =>
  match lookup_register rs1 false with
  | .error e => .error e
  | .ok rs1 =>
  if imm < -0x800 ∨ imm > 0x7ff then
    .error "12-bit immediate must be between -0x800 (-2048) and 0x7ff (2047)"
  else
    let immf : Nat := (c_uint32 imm % 2 ^ 12).toNat
    .ok (0 ||| opcode ||| (rd <<< 7) ||| (funct3 <<< 12) ||| (rs1 <<< 15) |||
      (immf <<< 20))

/-- Source: `u_type(rd, imm, *, opcode)` from asm.py: immediates in
`0x80000..0xfffff` first wrap to the corresponding negative value. -/
def u_type (rd : PyVal) (imm : Int) (opcode : Nat) : Except String Nat :=
  match lookup_register rd false with
  | .error e => .error e
  | .ok rd =>
  let imm := if imm ≥ 0x80000 ∧ imm ≤ 0xfffff then imm - 2 ^ 20 else imm
  if imm < -0x80000 ∨ imm > 0x7ffff then
    .error "20-bit immediate must be between -0x80000 (-524288) and 0x7ffff (524287)"
  else
    let immf : Nat := (c_uint32 imm % 2 ^ 20).toNat
    .ok (0 ||| opcode ||| (rd <<< 7) ||| (immf <<< 12))

/-- Field selector for the `constraint_not` closures used by the compressed
encoders (only the fields exercised by `cb_type`/`cbi_type` appear). -/
inductive CField where
  | rdRs1
  | imm
deriving DecidableEq, Repr

/-- Source: `constraint_not(field, value)` from asm.py: fail when the field equals
the value. -/
structure NotConstraint where
  field : CField
  value : Int
deriving DecidableEq, Repr

/-- Source: `ImmNotZero = constraint_not('imm', 0)`. -/
def ImmNotZero : NotConstraint := ⟨.imm, 0⟩

/-- Run the `cs` constraint list against the kwargs `(rd_rs1, imm)`. -/
def checkConstraints (cs : List NotConstraint) (rdRs1 : Nat) (imm : Int) :
    Except String Unit :=
  cs.forM fun c =>
    if (match c.field with | .rdRs1 => (rdRs1 : Int) | .imm => imm) = c.value
    then .error "constraint failed"
    else .ok ()

/-- Source: `cb_type(rs1, imm, *, opcode, funct3, cs=None)` from asm.py (used for
`c.beqz`/`c.bnez`, both with `cs=None`).  Note: the source performs NO range
or parity check on `imm`; it shifts right by 1 (`imm >> 1`) and masks to
8 bits (`c_uint32(imm).value & 0xff`), then scatters the bits. -/
def cb_type (rs1 : PyVal) (imm : Int) (opcode funct3 : Nat) :
    Except String Nat :=
  match lookup_register rs1 true with
  | .error e => .error e
  | .ok rs1 =>
  let imm := imm / 2 ^ 1
  let immu : Nat := (c_uint32 imm % 2 ^ 8).toNat
  let imm_8 := (immu >>> 7) &&& 0b1
  let imm_7_6 := (immu >>> 5) &&& 0b11
  let imm_5 := (immu >>> 4) &&& 0b1
  let imm_4_3 := (immu >>> 2) &&& 0b11
  let imm_2_1 := immu &&& 0b11
  .ok (0 ||| opcode ||| (imm_5 <<< 2) ||| (imm_2_1 <<< 3) ||| (imm_7_6 <<< 5) |||
    (rs1 <<< 7) ||| (imm_4_3 <<< 10) ||| (imm_8 <<< 12) ||| (funct3 <<< 13))

/-- Source: `cbi_type(rd_rs1, imm, *, opcode, funct2, funct3, cs=None)` from asm.py
(used for `c.srli`/`c.srai`/`c.andi`).  Note: after the `cs` constraints the
source performs NO range check on `imm`; it masks to 6 bits
(`c_uint32(imm).value & 0b111111`) and scatters the bits. -/
def cbi_type (rd_rs1 : PyVal) (imm : Int) (opcode funct2 funct3 : Nat)
    (cs : List NotConstraint) : Except String Nat :=
  match lookup_register rd_rs1 true with
  | .error e => .error e
  | .ok rd_rs1 =>
  match checkConstraints cs rd_rs1 imm with
  | .error e => .error e
  | .ok _ =>
  let immu : Nat := (c_uint32 imm % 2 ^ 6).toNat
  let imm_5 := (immu >>> 5) &&& 0b1
  let imm_4_0 := immu &&& 0b11111
  .ok (0 ||| opcode ||| (imm_4_0 <<< 2) ||| (rd_rs1 <<< 7) ||| (funct2 <<< 10) |||
    (imm_5 <<< 12) ||| (funct3 <<< 13))

/-- Source: `ADDI = partial(i_type, opcode=0b0010011, funct3=0b000)`. -/
def ADDI (rd rs1 : PyVal) (imm : Int) : Except String Nat :=
  i_type rd rs1 imm 0b0010011 0b000

/-- Source: `LUI = partial(u_type, opcode=0b0110111)`. -/
def LUI (rd : PyVal) (imm : Int) : Except String Nat :=
  u_type rd imm 0b0110111

/-- Source: `AUIPC = partial(u_type, opcode=0b0010111)`. -/
def AUIPC (rd : PyVal) (imm : Int) : Except String Nat :=
  u_type rd imm 0b0010111

/-- Source: `C_BEQZ = partial(cb_type, opcode=0b01, funct3=0b110)`. -/
def C_BEQZ (rs1 : PyVal) (imm : Int) : Except String Nat :=
  cb_type rs1 imm 0b01 0b110

/-- Source: `C_BNEZ = partial(cb_type, opcode=0b01, funct3=0b111)`. -/
def C_BNEZ (rs1 : PyVal) (imm : Int) : Except String Nat :=
  cb_type rs1 imm 0b01 0b111

/-- Source: `C_SRLI = partial(cbi_type, opcode=0b01, funct2=0b00, funct3=0b100,
cs=[ImmNotZero])`. -/
def C_SRLI (rd_rs1 : PyVal) (imm : Int) : Except String Nat :=
  cbi_type rd_rs1 imm 0b01 0b00 0b100 [ImmNotZero]

/-- Source: `C_SRAI = partial(cbi_type, opcode=0b01, funct2=0b01, funct3=0b100,
cs=[ImmNotZero])`. -/
def C_SRAI (rd_rs1 : PyVal) (imm : Int) : Except String Nat :=
  cbi_type rd_rs1 imm 0b01 0b01 0b100 [ImmNotZero]

/-- Source: `C_ANDI = partial(cbi_type, opcode=0b01, funct2=0b10, funct3=0b100)`. -/
def C_ANDI (rd_rs1 : PyVal) (imm : Int) : Except String Nat :=
  cbi_type rd_rs1 imm 0b01 0b10 0b100 []

/-! ## Expressions (`Expr` hierarchy and `parse_immediate`) -/

/-- The `Expr` class hierarchy of asm.py: `Arithmetic(expr)` (a source
string), `Position(reference, expr)`, `Offset(reference)`, `Hi(expr)`,
`Lo(expr)`. -/
inductive Expr where
  | arithmetic (expr : String)
  | position (reference : String) (expr : Expr)
  | offset (reference : String)
  | hi (expr : Expr)
  | lo (expr : Expr)
deriving DecidableEq, Repr

/-- An environment (a Python dict of `name -> int`). -/
def Env : Type := String → Option Int

/-- Source: `ChainMap(constants, labels)`: look up in the first map, then the
second. -/
def chainMap (a b : Env) : Env :=
  fun k => match a k with
  | some v => some v
  | none => b k

/-- Models `Arithmetic.eval` of asm.py, which hands the expression string to
Python `eval` against the environment.  The model covers the fragment the
theorems below rely on: an integer literal (with optional base prefix) or a
single name bound in the environment; anything else is an evaluation error.
(The full Python arithmetic sub-language is not needed by any claim.) -/
def evalArithmetic (s : String) (env : Env) : Except String Int :=
  match pyIntBase0 s with
  | some v => .ok v
  | none =>
    match env s with
    | some v => .ok v
    | none => .error "unknown variable in expr"

/-- Source: `Expr.eval(position, env, line)` from asm.py: `Position` adds the
referenced value to its inner expression, `Offset` is reference minus
current position, `Hi`/`Lo` apply the relocation helpers, and a missing
reference is an error. -/
def Expr.eval : Expr → Int → Env → Except String Int
  | .arithmetic s, _, env => evalArithmetic s env
  | .position ref e, p, env =>
    match env ref with
    | none => .error "invalid reference in %position modifier"
    | some dest => (e.eval p env).map (fun base => base + dest)
  | .offset ref, p, env =>
    match env ref with
    | none => .error "invalid reference in %offset modifier"
    | some dest => .ok (dest - p)
  | .hi e, p, env => (e.eval p env).map relocate_hi
  | .lo e, p, env => (e.eval p env).map relocate_lo

/-- The token manipulation shared by the `%hi` and `%lo` branches of
`parse_immediate`: with a parenthesis (`imm[1] == \x27(\x27`) the unpacking
`_, _, *imm, _ = imm` keeps everything between the second and last tokens;
without one, `_, *imm = imm` keeps everything after the head.  `none` models
the Python `IndexError`/`ValueError` when there are too few tokens. -/
def stripModifierParens (rest : List String) : Option (List String) :=
  match rest with
  | [] => none
  | "(" :: rest2 => if rest2.isEmpty then none else some rest2.dropLast
  | _ :: _ => some rest

/-- Python `str.lower()` (over the characters; kernel-reducible, unlike
`String.toLower`). -/
def pyLower (s : String) : String := String.mk (s.data.map Char.toLower)

/-- Stripped tokens are never more numerous (used by `parse_immediate`'s
termination argument). -/
theorem stripModifierParens_length (rest inner : List String)
    (h : stripModifierParens rest = some inner) : inner.length ≤ rest.length := by
  unfold stripModifierParens at h
  split at h
  · exact absurd h (by simp)
  · split at h
    · exact absurd h (by simp)
    · simp only [Option.some.injEq] at h
      subst h
      simp only [List.length_cons, List.length_dropLast]
      omega
  · simp only [Option.some.injEq] at h
    subst h
    exact le_refl _

/-- Source: `parse_immediate(imm, line)` from asm.py, over the token list: the
`%position`/`%offset`/`%hi`/`%lo` heads are recognised (with or without
parentheses), `%hi`/`%lo` recurse on the stripped tokens, and anything else
becomes an `Arithmetic` of the space-joined tokens.  A Python `IndexError`
or tuple-unpack `ValueError` (too few tokens) is modelled as an error. -/
def parse_immediate : List String → Except String Expr
  | [] => .error "empty immediate value"
  | head :: rest =>
    if pyLower head = "%position" then
      match rest with
      | [] => .error "index out of range"
      | "(" :: rest2 =>
        match rest2 with
        | [] => .error "not enough values to unpack"
        | reference :: rest3 =>
          if rest3.isEmpty then .error "not enough values to unpack"
          else .ok (.position reference (.arithmetic (" ".intercalate rest3.dropLast)))
      | reference :: rest2 =>
        .ok (.position reference (.arithmetic (" ".intercalate rest2)))
    else if pyLower head = "%offset" then
      match rest with
      | [] => .error "index out of range"
      | ["(", reference, _] => .ok (.offset reference)
      | "(" :: _ => .error "values to unpack mismatch"
      | [reference] => .ok (.offset reference)
      | _ => .error "values to unpack mismatch"
    else if pyLower head = "%hi" then
      match h : stripModifierParens rest with
      | none => .error "too few tokens after modifier"
      | some inner => (parse_immediate inner).map .hi
    else if pyLower head = "%lo" then
      match h : stripModifierParens rest with
      | none => .error "too few tokens after modifier"
      | some inner => (parse_immediate inner).map .lo
    else
      .ok (.arithmetic (" ".intercalate (head :: rest)))
termination_by l => l.length
decreasing_by
  all_goals
    have := stripModifierParens_length _ _ h
    simp only [List.length_cons]
    omega

/-! ## Items and their sizes -/

/-- Source: `struct.calcsize` for the little-endian single-code formats used by the
items modelled here (other formats do not occur in the theorems below). -/
def structCalcsize (fmt : String) : Int :=
  if fmt = "<B" ∨ fmt = "<b" then 1
  else if fmt = "<H" ∨ fmt = "<h" then 2
  else if fmt = "<I" ∨ fmt = "<i" then 4
  else if fmt = "<Q" ∨ fmt = "<q" then 8
  else 0

/-- The `Item` classes of asm.py that the claims exercise: `Label`,
`Align`, `Blob`, `Pack`, `ITypeInstruction`, `UTypeInstruction`, and
`PseudoInstruction` (whose `args` are still raw tokens). -/
inductive Item where
  | label (name : String)
  | align (alignment : Int)
  | blob (data : List Nat)
  | pack (fmt : String) (imm : Expr)
  | iTypeInst (name : String) (rd rs1 : PyVal) (imm : Expr) (isAuipcJump : Bool)
  | uTypeInst (name : String) (rd : PyVal) (imm : Expr)
  | pseudo (name : String) (args : List String)
deriving DecidableEq, Repr

/-- The `size()` methods: labels are 0 bytes, `Align(n)` pessimistically
reports `n`, blobs and packs their data size, base instructions 4, and
pseudo-instructions 8 for `li`/`call`/`tail` else 4. -/
def Item.size : Item → Int
  | .label _ => 0
  | .align n => n
  | .blob data => data.length
  | .pack fmt _ => structCalcsize fmt
  | .iTypeInst _ _ _ _ _ => 4
  | .uTypeInst _ _ _ => 4
  | .pseudo name _ => if name = "li" ∨ name = "call" ∨ name = "tail" then 8 else 4

/-! ## `resolve_labels` (C8) -/

/-- Source: `labels[name] = position`: Python dict assignment. -/
def updateLabel (labels : Env) (name : String) (position : Int) : Env :=
  fun k => if k = name then some position else labels k

/-- The loop of `resolve_labels` from asm.py: walk the items accumulating
`position` by each item's size; every `Label` binds `labels[name] =
position` and is dropped from the stream.  There is no check against an
existing binding. -/
def resolve_labels_go (position : Int) (labels : Env) :
    List Item → List Item × Env
  | [] => ([], labels)
  | .label name :: rest =>
    resolve_labels_go position (updateLabel labels name position) rest
  | item :: rest =>
    let r := resolve_labels_go (position + item.size) labels rest
    (item :: r.1, r.2)

/-- Source: `resolve_labels(items, labels)` from asm.py. -/
def resolve_labels (items : List Item) (labels : Env) : List Item × Env :=
  resolve_labels_go 0 labels items

/-- The byte position of the LAST definition of `name` in the item stream
(using the same worst-case sizes as `resolve_labels`), if any. -/
def last_label_position (position : Int) (name : String) :
    List Item → Option Int
  | [] => none
  | .label n :: rest =>
    match last_label_position position name rest with
    | some q => some q
    | none => if n = name then some position else none
  | item :: rest => last_label_position (position + item.size) name rest

/-! ## `transform_pseudo_instructions` (C3) -/

/-- The label-shrinking step used by the single-instruction expansions (and
by `resolve_aligns`/`transform_compressible`): Python's
`new_labels = {k: v - amount for k, v in labels.items() if v > position};
labels.update(new_labels)`. -/
def shrink_labels (labels : Env) (position amount : Int) : Env :=
  fun k =>
    match labels k with
    | some v => if v > position then some (v - amount) else some v
    | none => none

/-- The loop of `transform_pseudo_instructions` from asm.py, for the
catalogue branches the claims exercise (`nop`, `li`, `mv`); the remaining
one-for-one rewrites and `call`/`tail` follow the same pattern and are not
needed by any theorem below, so reaching them is modelled as an error.
For `li rd imm`: evaluate the immediate against `ChainMap(constants,
labels)` at the current position, wrap with `c_int32`; a 12-bit signed value
becomes `addi rd x0 lo(imm)`, a value with zero low 12 bits becomes
`lui rd hi(imm)` (both single-instruction cases shrink all labels past this
position by 4), anything else becomes `lui rd hi(imm); addi rd rd lo(imm)`. -/
def transform_pseudo_go (constants : Env) (position : Int) (labels : Env) :
    List Item → Except String (List Item × Env)
  | [] => .ok ([], labels)
  | .pseudo name args :: rest =>
    if name = "nop" then
      let inst := Item.iTypeInst "addi" (.str "x0") (.str "x0")
        (.arithmetic "0") false
      (transform_pseudo_go constants (position + inst.size) labels rest).map
        (fun r => (inst :: r.1, r.2))
    else if name = "li" then
      match args with
      | [] => .error "not enough values to unpack"
      | rd :: immToks =>
        match parse_immediate immToks with
        | .error e => .error e
        | .ok imm =>
          match imm.eval position (chainMap constants labels) with
          | .error e => .error e
          | .ok value0 =>
            let value := c_int32 value0
            if -2 ^ 11 ≤ value ∧ value ≤ 2 ^ 11 - 1 then
              let inst := Item.iTypeInst "addi" (.str rd) (.str "x0")
                (.lo imm) false
              let labels := shrink_labels labels position 4
              (transform_pseudo_go constants (position + inst.size) labels
                rest).map (fun r => (inst :: r.1, r.2))
            else if value % 2 ^ 12 = 0 then
              let inst := Item.uTypeInst "lui" (.str rd) (.hi imm)
              let labels := shrink_labels labels position 4
              (transform_pseudo_go constants (position + inst.size) labels
                rest).map (fun r => (inst :: r.1, r.2))
            else
              let inst1 := Item.uTypeInst "lui" (.str rd) (.hi imm)
              let inst2 := Item.iTypeInst "addi" (.str rd) (.str rd)
                (.lo imm) false
              (transform_pseudo_go constants
                (position + inst1.size + inst2.size) labels rest).map
                (fun r => (inst1 :: inst2 :: r.1, r.2))
    else if name = "mv" then
      match args with
      | [rd, rs] =>
        let inst := Item.iTypeInst "addi" (.str rd) (.str rs)
          (.arithmetic "0") false
        (transform_pseudo_go constants (position + inst.size) labels
          rest).map (fun r => (inst :: r.1, r.2))
      | _ => .error "values to unpack mismatch"
    else
      .error "pseudo-instruction branch not embedded"
  | item :: rest =>
    (transform_pseudo_go constants (position + item.size) labels rest).map
      (fun r => (item :: r.1, r.2))

/-- Source: `transform_pseudo_instructions(items, constants, labels)` from asm.py. -/
def transform_pseudo_instructions (items : List Item)
    (constants labels : Env) : Except String (List Item × Env) :=
  transform_pseudo_go constants 0 labels items

/-! ## `resolve_aligns` (C4) and the byte-emitting passes -/

/-- Source: `Align.resolution_size(position)` from asm.py:
`padding = alignment - (position % alignment)`, with `padding == alignment`
(already aligned) collapsing to 0. -/
def resolution_size (alignment position : Int) : Int :=
  let padding := alignment - position % alignment
  if padding = alignment then 0 else padding

/-- The loop of `resolve_aligns` from asm.py: for each `Align(n)` compute
the actual padding, shrink every label past this position by
`size - padding` (the worst case `n` was assumed earlier), drop the item
when already aligned, else emit a zero-filled `Blob` of the padding size. -/
def resolve_aligns_go (position : Int) (labels : Env) :
    List Item → List Item × Env
  | [] => ([], labels)
  | .align n :: rest =>
    let padding := resolution_size n position
    let shrinkAmt := (Item.align n).size - padding
    let labels := shrink_labels labels position shrinkAmt
    if padding = 0 then
      resolve_aligns_go position labels rest
    else
      let r := resolve_aligns_go (position + padding) labels rest
      (Item.blob (List.replicate padding.toNat 0) :: r.1, r.2)
  | item :: rest =>
    let r := resolve_aligns_go (position + item.size) labels rest
    (item :: r.1, r.2)

/-- Source: `resolve_aligns(items, labels)` from asm.py. -/
def resolve_aligns (items : List Item) (labels : Env) : List Item × Env :=
  resolve_aligns_go 0 labels items

/-- Items after `resolve_immediates`: the same classes with the immediate
field now a concrete integer.  `raw` carries an item that had no immediate
field and passed through unchanged. -/
inductive RItem where
  | blob (data : List Nat)
  | pack (fmt : String) (imm : Int)
  | iTypeInst (name : String) (rd rs1 : PyVal) (imm : Int)
  | uTypeInst (name : String) (rd : PyVal) (imm : Int)
  | raw (item : Item)
deriving DecidableEq, Repr

/-- The loop of `resolve_immediates` from asm.py: items that carry an
expression evaluate it against `ChainMap(constants, labels)` at the current
position (an AUIPC-paired `jalr` adds the 4-byte PC step of the preceding
`auipc`); items without an immediate pass through. -/
def resolve_immediates_go (constants labels : Env) (position : Int) :
    List Item → Except String (List RItem)
  | [] => .ok []
  | item :: rest =>
    let env := chainMap constants labels
    match item with
    | .pack fmt imm =>
      match imm.eval position env with
      | .error e => .error e
      | .ok v =>
        (resolve_immediates_go constants labels (position + item.size)
          rest).map (.pack fmt v :: ·)
    | .iTypeInst name rd rs1 imm isAuipcJump =>
      match imm.eval position env with
      | .error e => .error e
      | .ok v =>
        let v := if isAuipcJump then v + 4 else v
        (resolve_immediates_go constants labels (position + item.size)
          rest).map (.iTypeInst name rd rs1 v :: ·)
    | .uTypeInst name rd imm =>
      match imm.eval position env with
      | .error e => .error e
      | .ok v =>
        (resolve_immediates_go constants labels (position + item.size)
          rest).map (.uTypeInst name rd v :: ·)
    | .blob d =>
      (resolve_immediates_go constants labels (position + item.size)
        rest).map (.blob d :: ·)
    | other =>
      (resolve_immediates_go constants labels (position + other.size)
        rest).map (.raw other :: ·)

/-- Source: `resolve_immediates(items, constants, labels)` from asm.py. -/
def resolve_immediates (items : List Item) (constants labels : Env) :
    Except String (List RItem) :=
  resolve_immediates_go constants labels 0 items

/-- Source: `struct.pack(\x27<I\x27, code)`: 4 little-endian bytes; values at or above
`2^32` raise `struct.error`. -/
def pack_le32 (code : Nat) : Except String (List Nat) :=
  if code < 2 ^ 32 then
    .ok [code % 2 ^ 8, code / 2 ^ 8 % 2 ^ 8, code / 2 ^ 16 % 2 ^ 8,
      code / 2 ^ 24 % 2 ^ 8]
  else .error "struct.error: argument out of range"

/-- The loop of `resolve_instructions` from asm.py, for the encoders the
claims exercise (`addi`, `lui`, `auipc`); other mnemonics dispatch through
the same `INSTRUCTIONS` table and are not needed by any theorem below.
Each encoded instruction becomes a 4-byte little-endian `Blob`. -/
def resolve_instructions : List RItem → Except String (List RItem)
  | [] => .ok []
  | .iTypeInst name rd rs1 imm :: rest =>
    if name = "addi" then
      match ADDI rd rs1 imm with
      | .error e => .error e
      | .ok code =>
        match pack_le32 code with
        | .error e => .error e
        | .ok data => (resolve_instructions rest).map (.blob data :: ·)
    else .error "instruction encoder not embedded"
  | .uTypeInst name rd imm :: rest =>
    if name = "lui" then
      match LUI rd imm with
      | .error e => .error e
      | .ok code =>
        match pack_le32 code with
        | .error e => .error e
        | .ok data => (resolve_instructions rest).map (.blob data :: ·)
    else if name = "auipc" then
      match AUIPC rd imm with
      | .error e => .error e
      | .ok code =>
        match pack_le32 code with
        | .error e => .error e
        | .ok data => (resolve_instructions rest).map (.blob data :: ·)
    else .error "instruction encoder not embedded"
  | item :: rest => (resolve_instructions rest).map (item :: ·)

/-- Source: `struct.pack(fmt, imm)` for the formats the claims exercise: `<B`
(one unsigned byte, range-checked) and `<I` (via `pack_le32`). -/
def struct_pack (fmt : String) (imm : Int) : Except String (List Nat) :=
  if fmt = "<B" then
    if 0 ≤ imm ∧ imm ≤ 255 then .ok [imm.toNat]
    else .error "struct.error: ubyte format requires 0 <= number <= 255"
  else if fmt = "<I" then
    if 0 ≤ imm then pack_le32 imm.toNat
    else .error "struct.error: argument out of range"
  else .error "struct format not embedded"

/-- The loop of `resolve_packs` from asm.py: each `Pack` becomes the
`struct.pack` of its immediate. -/
def resolve_packs : List RItem → Except String (List RItem)
  | [] => .ok []
  | .pack fmt imm :: rest =>
    match struct_pack fmt imm with
    | .error e => .error e
    | .ok data => (resolve_packs rest).map (.blob data :: ·)
  | item :: rest => (resolve_packs rest).map (item :: ·)

/-- Source: `resolve_blobs(items)` from asm.py: concatenate all blobs; any non-blob
item left at this point is an error. -/
def resolve_blobs : List RItem → Except String (List Nat)
  | [] => .ok []
  | .blob d :: rest => (resolve_blobs rest).map (d ++ ·)
  | _ :: _ => .error "expected only blobs at this point"

/-- The item-level tail of `assemble` from asm.py for the modelled item
kinds, with `compress=False`: `resolve_constants`,
`resolve_register_aliases`, `resolve_strings`, `resolve_sequences`,
`transform_shorthand_packs` and `resolve_include_bytes` are identities on
streams that contain none of their item kinds (as in the theorems below)
and are omitted. -/
def assemble_items (items : List Item) (constants labels : Env) :
    Except String (List Nat) :=
  let r := resolve_labels items labels
  match transform_pseudo_instructions r.1 constants r.2 with
  | .error e => .error e
  | .ok r2 =>
    let r3 := resolve_aligns r2.1 r2.2
    match resolve_immediates r3.1 constants r3.2 with
    | .error e => .error e
    | .ok items4 =>
      match resolve_instructions items4 with
      | .error e => .error e
      | .ok items5 =>
        match resolve_packs items5 with
        | .error e => .error e
        | .ok items6 => resolve_blobs items6

/-! ## C1: relocation round-trip -/

/-- C1: for every integer `v` (in particular every 32-bit one), recombining the
relocation halves reconstructs `v` up to 32-bit signed interpretation:
`sign_extend(((relocate_hi v << 12) + relocate_lo v) & 0xFFFFFFFF, 32) =
sign_extend(v, 32)`. -/
theorem relocate_hi_lo_roundtrip (v : Int) :
    sign_extend ((relocate_hi v * 2 ^ 12 + relocate_lo v) % 2 ^ 32) 32 =
      sign_extend v 32 := by
  unfold relocate_hi relocate_lo sign_extend
  dsimp only
  norm_num
  split <;> omega

/-- Sanity checks of `lookup_register` against the dict semantics: parseable
spellings, table names, Python's leading-zero rejection, the compressed
rebasing. -/
theorem lookup_register_examples :
    lookup_register (.str "fp") false = .ok 8 ∧
    lookup_register (.str "x13") false = .ok 13 ∧
    lookup_register (.str "010") false =
      .error "register must be a valid integer, name, or alias" ∧
    lookup_register (.int 9) true = .ok 1 := by decide

/-- Cross-checks of the embedded encoders against the repository's own test
vectors (tests/test_assemble.py and tests/test_isa_ext_c.py). -/
theorem encoder_test_vectors :
    ADDI (.str "t0") (.str "zero") 1 = .ok 0x00100293 ∧
    C_BEQZ (.int 8) 0 = .ok 0b1100000000000001 ∧
    C_BEQZ (.int 15) (-256) = .ok 0b1101001110000001 ∧
    C_BNEZ (.int 8) 254 = .ok 0b1110110001111101 ∧
    C_SRLI (.int 8) 31 = .ok 0b1000000001111101 ∧
    C_SRAI (.int 15) 1 = .ok 0b1000011110000101 ∧
    C_ANDI (.int 8) 1 = .ok 0b1000100000000101 ∧
    C_SRLI (.int 8) 0 = .error "constraint failed" := by decide

/-! ## Register lookup facts -/

set_option maxRecDepth 8000 in
/-- Every string key of the register table resolves, via `lookup_register`,
to the register number the table assigns to it. -/
theorem lookup_register_table_ok :
    ∀ p ∈ REGISTERS, lookup_register (.str p.1) false = .ok p.2 := by decide

/-- All register numbers in the table are below 32. -/
theorem REGISTERS_values_lt : ∀ p ∈ REGISTERS, p.2 < 32 := by decide

/-- A successful string-table lookup yields a register number below 32. -/
theorem lookupRegStr_lt (s : String) (r : Nat) (h : lookupRegStr s = some r) :
    r < 32 := by
  unfold lookupRegStr at h
  cases hf : REGISTERS.find? (fun p => p.1 = s) with
  | none => rw [hf] at h; exact absurd h (by simp)
  | some p =>
    rw [hf] at h
    simp only [Option.map_some', Option.some.injEq] at h
    exact h ▸ REGISTERS_values_lt p (List.mem_of_find?_eq_some hf)

/-- A successful dict lookup yields a register number below 32. -/
theorem regKeyLookup_lt (w : PyVal) (r0 : Nat)
    (h : regKeyLookup w = some r0) : r0 < 32 := by
  cases w with
  | int i =>
    simp only [regKeyLookup] at h
    split at h
    · simp only [Option.some.injEq] at h; omega
    · exact absurd h (by simp)
  | str s => exact lookupRegStr_lt s r0 h

/-- A successful `lookup_register` always yields a register number below 32
(below 8 in compressed mode). -/
theorem lookup_register_lt (v : PyVal) (c : Bool) (r : Nat)
    (h : lookup_register v c = .ok r) : r < 32 := by
  unfold lookup_register at h
  cases hk : regKeyLookup (coerceRegToken v) with
  | none => rw [hk] at h; exact absurd h (by simp)
  | some r0 =>
    have hr0 : r0 < 32 := regKeyLookup_lt _ r0 hk
    rw [hk] at h
    dsimp only at h
    split_ifs at h <;> simp only [Except.ok.injEq] at h <;> omega

/-! ## C5 and C10: register operand spellings -/

/-- C5: for every register number `n` in 0..31, the decimal spelling and the
architectural `x`-name are in the register table, and every two table
spellings of `n` (decimal, `x`-name, or ABI alias) resolve to `n` and
produce identical encodings in the R-, I- and U-type encoders. -/
theorem register_spelling_symmetry :
    ∀ n : Nat, n < 32 →
      ((toString n, n) ∈ REGISTERS ∧ ("x" ++ toString n, n) ∈ REGISTERS) ∧
      ∀ s t : String, (s, n) ∈ REGISTERS → (t, n) ∈ REGISTERS →
        lookup_register (.str s) false = .ok n ∧
        (∀ rs1 rs2 opcode funct3 funct7,
          r_type (.str s) rs1 rs2 opcode funct3 funct7 =
            r_type (.str t) rs1 rs2 opcode funct3 funct7) ∧
        (∀ rd imm opcode funct3,
          i_type rd (.str s) imm opcode funct3 =
            i_type rd (.str t) imm opcode funct3) ∧
        (∀ imm opcode,
          u_type (.str s) imm opcode = u_type (.str t) imm opcode) := by
  intro n hn
  have hmem : ∀ m : Nat, m < 32 →
      (toString m, m) ∈ REGISTERS ∧ ("x" ++ toString m, m) ∈ REGISTERS := by
    decide
  refine ⟨hmem n hn, ?_⟩
  intro s t hs ht
  have h1 := lookup_register_table_ok (s, n) hs
  have h2 := lookup_register_table_ok (t, n) ht
  refine ⟨h1, ?_, ?_, ?_⟩
  · intro rs1 rs2 opcode funct3 funct7
    simp [r_type, h1, h2]
  · intro rd imm opcode funct3
    simp [i_type, h1, h2]
  · intro imm opcode
    simp [u_type, h1, h2]

/-- Witness for C5 at `n = 8`: `fp` and `s0` are spellings of register 8 and
encode identically. -/
theorem register_spelling_symmetry_witness :
    lookup_register (.str "fp") false = .ok 8 ∧
    r_type (.str "fp") (.int 1) (.int 2) 0b0110011 0 0 =
      r_type (.str "s0") (.int 1) (.int 2) 0b0110011 0 0 := by
  have h := (register_spelling_symmetry 8 (by decide)).2 "fp" "s0"
    (by decide) (by decide)
  exact ⟨h.1, h.2.1 (.int 1) (.int 2) 0b0110011 0 0⟩

/-- C10: register operands accept any base-prefixed integer spelling
(`0x1f`, `0b101`, `0o10`), not only the decimal tokens `0`..`31`, and they
encode identically to the decimal spelling. -/
theorem lookup_register_base_prefixed :
    lookup_register (.str "0x1f") false = .ok 31 ∧
    lookup_register (.str "0b101") false = .ok 5 ∧
    lookup_register (.str "0o10") false = .ok 8 ∧
    ADDI (.str "0x1f") (.str "x0") 0 = ADDI (.str "31") (.str "x0") 0 ∧
    ADDI (.str "0x1f") (.str "x0") 0 = .ok 0b00000000000000000000111110010011 := by
  decide

/-! ## C2: missing validation in `cb_type` / `cbi_type` -/

/-- C2 (code bug): the compressed-branch encoder `cb_type` and the compressed
shift encoder `cbi_type` silently truncate out-of-range or odd immediates
instead of raising an error: `c.beqz x8, 1` (odd) encodes exactly like
`c.beqz x8, 0`; `c.beqz x8, 256` (out of the 8-bit range) encodes exactly
like `c.beqz x8, -256`; and `c.srli x8, 64` (out of the 6-bit range) encodes
with a zero shift amount. -/
theorem cb_cbi_silent_truncation :
    C_BEQZ (.int 8) 1 = .ok 0b1100000000000001 ∧
    C_BEQZ (.int 8) 0 = .ok 0b1100000000000001 ∧
    C_BEQZ (.int 8) 256 = C_BEQZ (.int 8) (-256) ∧
    C_SRLI (.int 8) 64 = .ok 0b1000000000000001 := by
  decide

/-! ## C7: I-type immediate range -/

/-- C7: with valid register operands and in-range `opcode`/`funct3`, the
I-type encoder succeeds exactly when the immediate lies in `[-2048, 2047]`;
out-of-range immediates produce the range error; on success the immediate
occupies bits 31:20 as the 12-bit two's-complement field `imm mod 2^12`. -/
theorem i_type_range (rd rs1 : PyVal) (r r1 : Nat) (imm : Int)
    (opcode funct3 : Nat)
    (hrd : lookup_register rd false = .ok r)
    (hrs1 : lookup_register rs1 false = .ok r1)
    (hop : opcode < 2 ^ 7) (hf3 : funct3 < 2 ^ 3) :
    ((i_type rd rs1 imm opcode funct3).isOk ↔ -2048 ≤ imm ∧ imm ≤ 2047) ∧
    (imm < -2048 ∨ 2047 < imm →
      i_type rd rs1 imm opcode funct3 =
        .error "12-bit immediate must be between -0x800 (-2048) and 0x7ff (2047)") ∧
    (∀ c, i_type rd rs1 imm opcode funct3 = .ok c →
      c / 2 ^ 20 = (imm % 2 ^ 12).toNat ∧ c < 2 ^ 32) := by
  have hr : r < 32 := lookup_register_lt rd false r hrd
  have hr1 : r1 < 32 := lookup_register_lt rs1 false r1 hrs1
  simp only [i_type, hrd, hrs1]
  by_cases hrange : imm < -0x800 ∨ imm > 0x7ff
  · rw [if_pos hrange]
    refine ⟨?_, fun _ => rfl, fun c hc => by simp at hc⟩
    constructor
    · intro h; exact absurd h (by simp [Except.isOk, Except.toBool])
    · intro h; exact absurd hrange (by omega)
  · rw [if_neg hrange]
    push_neg at hrange
    refine ⟨⟨fun _ => ⟨by omega, by omega⟩, fun _ => rfl⟩,
      fun h => absurd h (by omega), ?_⟩
    intro c hc
    simp only [Except.ok.injEq] at hc
    subst hc
    have h0 : (0 : Int) ≤ imm % 2 ^ 12 := Int.emod_nonneg imm (by norm_num)
    have h1 : imm % 2 ^ 12 < 2 ^ 12 := Int.emod_lt_of_pos imm (by norm_num)
    have himmf : (c_uint32 imm % 2 ^ 12).toNat = (imm % 2 ^ 12).toNat := by
      unfold c_uint32
      rw [Int.emod_emod_of_dvd imm (by norm_num)]
    have himmf_lt : (imm % 2 ^ 12).toNat < 2 ^ 12 := by omega
    have hlow : opcode ||| r <<< 7 ||| funct3 <<< 12 ||| r1 <<< 15 < 2 ^ 20 := by
      apply Nat.or_lt_two_pow _ (by rw [Nat.shiftLeft_eq]; omega)
      apply Nat.or_lt_two_pow _ (by rw [Nat.shiftLeft_eq]; omega)
      apply Nat.or_lt_two_pow (by omega) (by rw [Nat.shiftLeft_eq]; omega)
    have hcode :
        0 ||| opcode ||| r <<< 7 ||| funct3 <<< 12 ||| r1 <<< 15 |||
            (c_uint32 imm % 2 ^ 12).toNat <<< 20 =
          2 ^ 20 * (imm % 2 ^ 12).toNat +
            (opcode ||| r <<< 7 ||| funct3 <<< 12 ||| r1 <<< 15) := by
      rw [Nat.zero_or, himmf, Nat.or_comm, Nat.shiftLeft_eq, Nat.mul_comm]
      exact (Nat.mul_add_lt_is_or hlow _).symm
    rw [hcode]
    constructor
    · omega
    · omega

/-- Witness for C7 at the boundary `imm = -2048` with `addi x1, x0`. -/
theorem i_type_range_witness :
    (i_type (.str "x1") (.str "x0") (-2048) 0b0010011 0b000).isOk = true ∧
    (i_type (.str "x1") (.str "x0") (-2048) 0b0010011 0b000 = .ok 0x80000093) := by
  have h := i_type_range (.str "x1") (.str "x0") 1 0 (-2048) 0b0010011 0b000
    (by decide) (by decide) (by decide) (by decide)
  exact ⟨(h.1).2 (by decide), by decide⟩

/-! ## C6: U-type immediate range -/

/-- C6: with a valid destination register, the U-type encoder accepts an
immediate in `0x80000..0xfffff` and encodes it identically to the
corresponding negative value `imm - 2^20`; it accepts `-0x80000..0x7ffff`
directly; and it rejects anything outside `-0x80000..0xfffff` with the
range error. -/
theorem u_type_range (rd : PyVal) (r : Nat) (imm : Int) (opcode : Nat)
    (hrd : lookup_register rd false = .ok r) :
    (0x80000 ≤ imm ∧ imm ≤ 0xfffff →
      u_type rd imm opcode = u_type rd (imm - 2 ^ 20) opcode ∧
      (u_type rd imm opcode).isOk) ∧
    (-0x80000 ≤ imm ∧ imm ≤ 0x7ffff → (u_type rd imm opcode).isOk) ∧
    (imm < -0x80000 ∨ 0xfffff < imm →
      u_type rd imm opcode =
        .error "20-bit immediate must be between -0x80000 (-524288) and 0x7ffff (524287)") := by
  simp only [u_type, hrd]
  refine ⟨?_, ?_, ?_⟩
  · intro h
    constructor
    · split_ifs <;> first | rfl | omega
    · split_ifs <;> first | rfl | omega
  · intro h
    split_ifs <;> first | rfl | omega
  · intro h
    split_ifs <;> first | rfl | omega

/-- Witness for C6 at `imm = 0x80000` and `imm = 0x100000` with `lui t0`. -/
theorem u_type_range_witness :
    u_type (.str "t0") 0x80000 0b0110111 = u_type (.str "t0") (-0x80000) 0b0110111 ∧
    u_type (.str "t0") 0x100000 0b0110111 =
      .error "20-bit immediate must be between -0x80000 (-524288) and 0x7ffff (524287)" := by
  have h1 := (u_type_range (.str "t0") 5 0x80000 0b0110111 (by decide)).1
    (by norm_num)
  have h2 := (u_type_range (.str "t0") 5 0x100000 0b0110111 (by decide)).2.2
    (by norm_num)
  exact ⟨by rw [h1.1]; norm_num, h2⟩

/-- Sanity checks of `parse_immediate` on an `%offset` modifier and a plain
arithmetic token run. -/
theorem parse_immediate_examples :
    parse_immediate ["%offset", "(", "foo", ")"] = .ok (.offset "foo") ∧
    parse_immediate ["1", "+", "2"] = .ok (.arithmetic "1 + 2") := by
  constructor <;> (unfold parse_immediate; decide)

/-! ## C9: `%hi`/`%lo` nesting -/

/-- One-step evaluation of the parenthesised modifier tail: stripping the
parentheses keeps exactly the inner tokens. -/
theorem stripModifierParens_paren (inner : List String) (h : inner ≠ []) :
    stripModifierParens ("(" :: (inner ++ [")"])) = some inner := by
  have hne : (inner ++ [")"]).isEmpty = false := by
    cases inner with
    | nil => exact absurd rfl h
    | cons a l => rfl
  unfold stripModifierParens
  simp only [hne, Bool.false_eq_true, if_false]
  rw [List.dropLast_concat]

/-- One-step evaluation of the parenthesised `%hi` branch: the inner tokens
are handed back to `parse_immediate` and wrapped in `Hi`, whatever they are. -/
theorem parse_immediate_hi_paren (inner : List String) (h : inner ≠ []) :
    parse_immediate ("%hi" :: "(" :: (inner ++ [")"])) =
      (parse_immediate inner).map .hi := by
  conv_lhs => unfold parse_immediate
  rw [if_neg (by decide), if_neg (by decide), if_pos (by decide)]
  split
  · next heq => rw [stripModifierParens_paren inner h] at heq; exact absurd heq (by simp)
  · next inner2 heq =>
    rw [stripModifierParens_paren inner h] at heq
    simp only [Option.some.injEq] at heq
    subst heq
    rfl

/-- One-step evaluation of the parenthesised `%lo` branch. -/
theorem parse_immediate_lo_paren (inner : List String) (h : inner ≠ []) :
    parse_immediate ("%lo" :: "(" :: (inner ++ [")"])) =
      (parse_immediate inner).map .lo := by
  conv_lhs => unfold parse_immediate
  rw [if_neg (by decide), if_neg (by decide), if_neg (by decide),
    if_pos (by decide)]
  split
  · next heq => rw [stripModifierParens_paren inner h] at heq; exact absurd heq (by simp)
  · next inner2 heq =>
    rw [stripModifierParens_paren inner h] at heq
    simp only [Option.some.injEq] at heq
    subst heq
    rfl

/-- C9 counterexample: `parse_immediate` accepts `%hi(%lo(42))` (and the
converse nesting), producing nested `Hi`/`Lo` expression nodes instead of
rejecting the expression. -/
theorem parse_immediate_accepts_nested_hi_lo :
    parse_immediate ["%hi", "(", "%lo", "(", "42", ")", ")"] =
      .ok (.hi (.lo (.arithmetic "42"))) ∧
    parse_immediate ["%lo", "(", "%hi", "(", "42", ")", ")"] =
      .ok (.lo (.hi (.arithmetic "42"))) := by
  have base : parse_immediate ["42"] = .ok (.arithmetic "42") := by
    unfold parse_immediate; decide
  have hlo : parse_immediate ["%lo", "(", "42", ")"] = .ok (.lo (.arithmetic "42")) := by
    have hx := parse_immediate_lo_paren ["42"] (by decide)
    simp only [List.cons_append, List.nil_append] at hx
    rw [hx, base]; rfl
  have hhi : parse_immediate ["%hi", "(", "42", ")"] = .ok (.hi (.arithmetic "42")) := by
    have hx := parse_immediate_hi_paren ["42"] (by decide)
    simp only [List.cons_append, List.nil_append] at hx
    rw [hx, base]; rfl
  constructor
  · have hx := parse_immediate_hi_paren ["%lo", "(", "42", ")"] (by decide)
    simp only [List.cons_append, List.nil_append] at hx
    rw [hx, hlo]; rfl
  · have hx := parse_immediate_lo_paren ["%hi", "(", "42", ")"] (by decide)
    simp only [List.cons_append, List.nil_append] at hx
    rw [hx, hhi]; rfl

/-- C9 amended: `%hi(...)` and `%lo(...)` wrap whatever immediate expression
their inner tokens parse to — including another `%hi`/`%lo` modifier; no
nesting restriction is enforced by the parser. -/
theorem parse_immediate_hi_lo_wrap (inner : List String) (h : inner ≠ []) :
    parse_immediate ("%hi" :: "(" :: (inner ++ [")"])) =
      (parse_immediate inner).map .hi ∧
    parse_immediate ("%lo" :: "(" :: (inner ++ [")"])) =
      (parse_immediate inner).map .lo :=
  ⟨parse_immediate_hi_paren inner h, parse_immediate_lo_paren inner h⟩

/-- Witness for C9's amended statement at `inner = %lo(42)`. -/
theorem parse_immediate_hi_lo_wrap_witness :
    parse_immediate ["%hi", "(", "%lo", "(", "42", ")", ")"] =
      (parse_immediate ["%lo", "(", "42", ")"]).map .hi :=
  (parse_immediate_hi_lo_wrap ["%lo", "(", "42", ")"] (by decide)).1

/-! ## C8: label redefinition -/

/-- C8 counterexample: a program that defines the label `a` twice resolves
without any error, silently binding `a` to the position of the LATER
definition (4, after the 4-byte blob), not the earlier one (0). -/
theorem resolve_labels_silent_rebinding :
    (resolve_labels [.label "a", .blob [0, 0, 0, 0], .label "a"]
      (fun _ => none)).2 "a" = some 4 ∧
    (resolve_labels [.label "a", .blob [0, 0, 0, 0], .label "a"]
      (fun _ => none)).1 = [.blob [0, 0, 0, 0]] := by
  constructor
  · rfl
  · rfl

/-- C8 amended: `resolve_labels` never fails; a name defined several times
ends up bound to the position of its LAST definition, and a name never
defined keeps its binding from the incoming environment. -/
theorem resolve_labels_last_definition_wins (items : List Item) (L : Env)
    (p : Int) (name : String) :
    (resolve_labels_go p L items).2 name =
      match last_label_position p name items with
      | some q => some q
      | none => L name := by
  induction items generalizing p L with
  | nil => rfl
  | cons head rest ih =>
    cases head with
    | label n =>
      show (resolve_labels_go p (updateLabel L n p) rest).2 name = _
      rw [ih]
      cases hl : last_label_position p name rest with
      | some q => simp only [last_label_position, hl]
      | none =>
        simp only [last_label_position, hl, updateLabel]
        by_cases hn : name = n
        · subst hn
          rw [if_pos rfl, if_pos rfl]
        · rw [if_neg hn, if_neg (fun hx => hn hx.symm)]
    | align a => exact ih _ _
    | blob d => exact ih _ _
    | pack fmt imm => exact ih _ _
    | iTypeInst nm rd rs1 imm aj => exact ih _ _
    | uTypeInst nm rd imm => exact ih _ _
    | pseudo nm args => exact ih _ _

/-! ## C3: `li` expansion -/

/-- C3: a `li rd imm` pseudo-instruction reached at position `p` whose
immediate evaluates to `v` expands to `addi rd x0 lo(imm)` when `c_int32 v`
fits the 12-bit signed range, to `lui rd hi(imm)` when its low 12 bits are
zero (both single cases shrinking every label strictly past `p` by 4, as
`shrink_labels` does pointwise), and to `lui rd hi(imm); addi rd rd lo(imm)`
otherwise (labels untouched, position advancing by 8). -/
theorem transform_li_expansion (constants : Env) (p : Int) (L : Env)
    (rd : String) (immToks : List String) (imm : Expr) (v : Int)
    (rest : List Item)
    (hparse : parse_immediate immToks = .ok imm)
    (heval : imm.eval p (chainMap constants L) = .ok v) :
    (∀ k x, L k = some x →
      shrink_labels L p 4 k = some (if x > p then x - 4 else x)) ∧
    transform_pseudo_go constants p L (.pseudo "li" (rd :: immToks) :: rest) =
      (if -2 ^ 11 ≤ c_int32 v ∧ c_int32 v ≤ 2 ^ 11 - 1 then
        (transform_pseudo_go constants (p + 4) (shrink_labels L p 4) rest).map
          (fun r => (Item.iTypeInst "addi" (.str rd) (.str "x0") (.lo imm)
            false :: r.1, r.2))
      else if c_int32 v % 2 ^ 12 = 0 then
        (transform_pseudo_go constants (p + 4) (shrink_labels L p 4) rest).map
          (fun r => (Item.uTypeInst "lui" (.str rd) (.hi imm) :: r.1, r.2))
      else
        (transform_pseudo_go constants (p + 4 + 4) L rest).map
          (fun r => (Item.uTypeInst "lui" (.str rd) (.hi imm) ::
            Item.iTypeInst "addi" (.str rd) (.str rd) (.lo imm) false ::
            r.1, r.2))) := by
  constructor
  · intro k x hk
    simp only [shrink_labels, hk]
    split <;> rfl
  · show (if "li" = "nop" then _ else _) = _
    rw [if_neg (by decide), if_pos rfl]
    simp only [hparse, heval]
    rfl

/-- Witness for C3 at the spec's own example `li t0 0x20000000` (value does
not fit 12 bits, low 12 bits are zero): a single `lui t0 hi(0x20000000)`. -/
theorem transform_li_expansion_witness :
    transform_pseudo_instructions
      [.pseudo "li" ["t0", "0x20000000"]] (fun _ => none) (fun _ => none) =
      .ok ([.uTypeInst "lui" (.str "t0")
        (.hi (.arithmetic "0x20000000"))], fun _ => none) := by
  have hparse : parse_immediate ["0x20000000"] =
      .ok (.arithmetic "0x20000000") := by
    unfold parse_immediate; decide
  have heval : (Expr.arithmetic "0x20000000").eval 0
      (chainMap (fun _ => none) (fun _ => none)) = .ok 0x20000000 := by
    decide
  have h := (transform_li_expansion (fun _ => none) 0 (fun _ => none)
    "t0" ["0x20000000"] (.arithmetic "0x20000000") 0x20000000 []
    hparse heval).2
  rw [transform_pseudo_instructions, h,
    if_neg (by decide), if_pos (by decide)]
  show Except.map _ (.ok ([], shrink_labels (fun _ => none) 0 4)) = _
  show Except.ok ([Item.uTypeInst "lui" (.str "t0")
    (.hi (.arithmetic "0x20000000"))], shrink_labels (fun _ => none) 0 4) = _
  have : shrink_labels (fun _ => none) 0 4 = (fun _ => none : Env) := by
    funext k
    rfl
  rw [this]

/-! ## C4: alignment resolution -/

/-- C4: an `Align(n)` (`0 < n`) reached at position `p` produces a zero
`Blob` of `(n - p % n) % n` bytes, shrinks every label strictly past `p` by
`n` minus that padding, and vanishes entirely when the padding is 0; and
the spec's alignment scenario (4-byte `addi`, 1-byte pack of 42, `align 4`,
4-byte `addi`) assembles to exactly 12 bytes whose offsets 5, 6 and 7 are
zero. -/
theorem resolve_aligns_spec (p : Int) (L : Env) (n : Int) (rest : List Item)
    (hn : 0 < n) :
    (resolution_size n p = (n - p % n) % n ∧
      resolve_aligns_go p L (.align n :: rest) =
        (if (n - p % n) % n = 0 then
          resolve_aligns_go p (shrink_labels L p n) rest
        else
          ((Item.blob (List.replicate ((n - p % n) % n).toNat 0) ::
            (resolve_aligns_go (p + (n - p % n) % n)
              (shrink_labels L p (n - (n - p % n) % n)) rest).1),
            (resolve_aligns_go (p + (n - p % n) % n)
              (shrink_labels L p (n - (n - p % n) % n)) rest).2))) ∧
    assemble_items
      [.iTypeInst "addi" (.str "zero") (.str "zero") (.arithmetic "0") false,
       .pack "<B" (.arithmetic "42"),
       .align 4,
       .iTypeInst "addi" (.str "zero") (.str "zero") (.arithmetic "0") false]
      (fun _ => none) (fun _ => none) =
      .ok [0x13, 0, 0, 0, 42, 0, 0, 0, 0x13, 0, 0, 0] := by
  have hmod0 : 0 ≤ p % n := Int.emod_nonneg p (by omega)
  have hmod1 : p % n < n := Int.emod_lt_of_pos p hn
  have hres : resolution_size n p = (n - p % n) % n := by
    unfold resolution_size
    by_cases h : n - p % n = n
    · rw [if_pos h]
      have : p % n = 0 := by omega
      rw [this]
      simp
    · rw [if_neg h]
      exact (Int.emod_eq_of_lt (by omega) (by omega)).symm
  refine ⟨⟨hres, ?_⟩, ?_⟩
  · have hsize : (Item.align n).size = n := rfl
    simp only [resolve_aligns_go, hsize, hres]
    rcases eq_or_ne ((n - p % n) % n) 0 with hz | hz
    · rw [if_pos hz, if_pos hz, hz]
      norm_num
    · rw [if_neg hz, if_neg hz]
  · decide

/-- Witness for C4's align step at `n = 4`, `p = 5` (the scenario's own
numbers: padding 3, labels shrink by 1). -/
theorem resolve_aligns_spec_witness :
    resolution_size 4 5 = 3 ∧
    (resolve_aligns_go 5 (fun _ => none) [.align 4]).1 =
      [.blob [0, 0, 0]] := by
  have h := resolve_aligns_spec 5 (fun _ => none) 4 [] (by decide)
  constructor
  · rw [h.1.1]; decide
  · rw [h.1.2]; decide

end Bronzebeard
